import Mathlib

/-!
Verification of the per-user API key store of the bot repository
(file bot/storage/api_keys.py).

Two embeddings are developed, both translated from the source:

1. a typed model of the registry operations acting on records in the
   normalized shape produced by the load path.  A per-user record holds the
   two namespace states (for the "do" and "ps" providers); each namespace
   state is an insertion-ordered key dictionary (mirroring a Python dict)
   together with an optional active key name.  The functions
   ns_set_named_key, ns_delete_named_key and ns_set_active_key mirror the
   corresponding private functions of the source; mutators return the
   document passed to the save call (or none when no save occurs).

2. a document-level model over a JSON value type, embedding the raw
   load/migrate/normalize pipeline together with the read and write
   operations, with Python dynamic-typing failures (TypeError and
   AttributeError from the in, get, setdefault and item-assignment
   operations on non-dict values) made explicit in an error monad.
   A Backend packages the outcome of the physical backend load and save
   calls, so that storage failures can be quantified over.
-/

set_option autoImplicit false

/-! ## Typed model: key dictionaries

A Python dict from key names to tokens is modelled as an insertion-ordered
association list with (in well-formed states) no duplicate keys.  dictSet
mirrors item assignment (update in place if the key is present, append
otherwise), dictDel mirrors the del statement, dictFirst mirrors
next(iter(keys), None). -/

def KeyDict := List (String × String)

instance : DecidableEq KeyDict := by
  unfold KeyDict
  infer_instance

def dictGet : KeyDict → String → Option String
  | [], _ => none
  | (k, v) :: rest, a => if k = a then some v else dictGet rest a

def dictSet : KeyDict → String → String → KeyDict
  | [], a, t => [(a, t)]
  | (k, v) :: rest, a, t => if k = a then (k, t) :: rest else (k, v) :: dictSet rest a t

def dictDel : KeyDict → String → KeyDict
  | [], _ => []
  | (k, v) :: rest, a => if k = a then rest else (k, v) :: dictDel rest a

def dictFirst (d : KeyDict) : Option String :=
  d.head?.map Prod.fst

/-! ## Typed model: namespace state and per-user record -/

structure NsState where
  keys : KeyDict
  active : Option String
deriving DecidableEq

inductive NsId where
  | ndo
  | nps
deriving DecidableEq

structure UserRecord where
  nsDo : NsState
  nsPs : NsState
deriving DecidableEq

def UserRecord.get (r : UserRecord) : NsId → NsState
  | .ndo => r.nsDo
  | .nps => r.nsPs

def UserRecord.set (r : UserRecord) : NsId → NsState → UserRecord
  | .ndo, s => { r with nsDo := s }
  | .nps, s => { r with nsPs := s }

def emptyNs : NsState := ⟨[], none⟩

/-- The record obtained by loading an absent or empty user document:
both namespaces have an empty key dict and no active key. -/
def emptyRecord : UserRecord := ⟨emptyNs, emptyNs⟩

/-- Python truthiness of an optional string (None and the empty string are
falsy), as used by the conditionals of the source. -/
def strTruthy : Option String → Bool
  | none => false
  | some s => if s = "" then false else true

/-! ## Typed model: the registry mutators

Each function embeds the corresponding private function of the source,
acting on the record produced by the load path.  The mutators that save
conditionally return the saved record as an Option (none meaning that the
save call was not reached). -/

/-- Embedding of a private source function: insert or overwrite the entry
name to token in the given namespace; if the stored active value is falsy
(absent or the empty string), set it to name; save. -/
def ns_set_named_key (r : UserRecord) (ns : NsId) (name token : String) : UserRecord :=
  let s := r.get ns
  let keys1 := dictSet s.keys name token
  let active1 := if strTruthy s.active then s.active else some name
  r.set ns ⟨keys1, active1⟩

/-- Embedding of a private source function: if name is absent return false
without saving; otherwise delete the entry, reassign the active pointer to
the first remaining key (or none) when it pointed at name, and save.
The second component is the record passed to the save call. -/
def ns_delete_named_key (r : UserRecord) (ns : NsId) (name : String) :
    Bool × Option UserRecord :=
  let s := r.get ns
  if (dictGet s.keys name).isSome then
    let keys1 := dictDel s.keys name
    let active1 := if s.active = some name then dictFirst keys1 else s.active
    (true, some (r.set ns ⟨keys1, active1⟩))
  else
    (false, none)

/-- Embedding of a private source function: if name is absent return false
without saving; otherwise switch the active pointer to name and save.
The second component is the record passed to the save call. -/
def ns_set_active_key (r : UserRecord) (ns : NsId) (name : String) :
    Bool × Option UserRecord :=
  let s := r.get ns
  if (dictGet s.keys name).isSome then
    (true, some (r.set ns { s with active := some name }))
  else
    (false, none)

/-! ## Typed model: operation sequences -/

inductive Op where
  | setKey : NsId → String → String → Op
  | delKey : NsId → String → Op
  | setActive : NsId → String → Op

/-- Effect of one mutating operation on the stored record of one user:
when the operation does not save, the stored record is unchanged. -/
def applyOp (r : UserRecord) : Op → UserRecord
  | .setKey ns n t => ns_set_named_key r ns n t
  | .delKey ns n => ((ns_delete_named_key r ns n).2).getD r
  | .setActive ns n => ((ns_set_active_key r ns n).2).getD r

/-- The stored record of one user after a sequence of mutating operations,
starting from the empty record. -/
def runOps (ops : List Op) : UserRecord :=
  ops.foldl applyOp emptyRecord

/-! ## Typed model: token resolution -/

/-- Embedding of a private source function: the token of the active key, or
none; a falsy active value (absent or empty) yields none. -/
def ns_get_active_tok (r : UserRecord) (ns : NsId) : Option String :=
  match (r.get ns).active with
  | none => none
  | some a => if a = "" then none else dictGet (r.get ns).keys a

/-- Source wrapper for the DigitalOcean namespace. -/
def get_active_token (r : UserRecord) : Option String :=
  ns_get_active_tok r .ndo

/-- Source wrapper for the Paperspace namespace. -/
def ps_get_active_token (r : UserRecord) : Option String :=
  ns_get_active_tok r .nps

/-- The process-wide settings object, as far as the store reads it. -/
structure Config where
  DO_API_TOKEN : String
  PS_API_TOKEN : String
deriving DecidableEq

/-- Python truthiness fallback on a configured default: a nonempty
configured string, else none. -/
def fallbackEnv (e : String) : Option String :=
  if e = "" then none else some e

/-- Embedding of get_token: the active token if truthy, else the
DO_API_TOKEN setting read from the configuration inside the function. -/
def get_token (r : UserRecord) (cfg : Config) : Option String :=
  let tok := get_active_token r
  if strTruthy tok then tok else fallbackEnv cfg.DO_API_TOKEN

/-- Embedding of get_ps_token: the active token if truthy, else the
PS_API_TOKEN setting read from the configuration inside the function. -/
def get_ps_token (r : UserRecord) (cfg : Config) : Option String :=
  let tok := ps_get_active_token r
  if strTruthy tok then tok else fallbackEnv cfg.PS_API_TOKEN

/-! ## Document model: JSON values and Python dynamic errors -/

/-- A JSON value as produced by the json module: objects are
insertion-ordered association lists with string keys. -/
inductive JVal where
  | null
  | bool (b : Bool)
  | num (n : Int)
  | str (s : String)
  | arr (xs : List JVal)
  | obj (fields : List (String × JVal))

/-- The Python exception classes relevant to the embedded code. -/
inductive PyErr where
  | typeError
  | attributeError
  | ioError
deriving DecidableEq

/-- First value bound to a key of an object, mirroring Python dict lookup
(keys are unique in every dict the json module produces). -/
def objLookup : List (String × JVal) → String → Option JVal
  | [], _ => none
  | (k, v) :: rest, a => if k = a then some v else objLookup rest a

/-- Replace the value bound to a key in place, or append the binding at the
end when the key is absent — the net effect on a Python dict of an in-place
mutation of the value at the key, or of a setdefault insertion. -/
def objUpdate : List (String × JVal) → String → JVal → List (String × JVal)
  | [], a, v => [(a, v)]
  | (k, w) :: rest, a, v => if k = a then (k, v) :: rest else (k, w) :: objUpdate rest a v

def listPre : List Char → List Char → Bool
  | [], _ => true
  | _ :: _, [] => false
  | a :: as, b :: bs => a == b && listPre as bs

def listSub : List Char → List Char → Bool
  | pat, [] => pat.isEmpty
  | pat, b :: t => listPre pat (b :: t) || listSub pat t

/-- The Python membership test (the in operator) with a string left
operand, as the source applies it to a loaded document: key membership on
a dict, substring on a string, element equality on a list, and a TypeError
on the remaining JSON values. -/
def pyContains (s : String) (v : JVal) : Except PyErr Bool :=
  match v with
  | .obj fs => .ok (objLookup fs s).isSome
  | .str t => .ok (listSub s.toList t.toList)
  | .arr xs => .ok (xs.any fun x => match x with | .str t => t = s | _ => false)
  | _ => .error .typeError

/-- The Python dict get method with a default: an AttributeError on a
non-dict receiver. -/
def pyGet (v : JVal) (k : String) (dflt : JVal) : Except PyErr JVal :=
  match v with
  | .obj fs => .ok ((objLookup fs k).getD dflt)
  | _ => .error .attributeError

/-- The Python dict get method with no default and an arbitrary JSON key:
a key that is not a string matches no entry (all JSON object keys are
strings) and yields None. -/
def pyGetK (v : JVal) (k : JVal) : Except PyErr JVal :=
  match v with
  | .obj fs =>
    .ok ((match k with | .str s => objLookup fs s | _ => none).getD .null)
  | _ => .error .attributeError

/-- Python truthiness of a JSON value. -/
def pyTruthy : JVal → Bool
  | .null => false
  | .bool b => b
  | .num n => if n = 0 then false else true
  | .str s => if s = "" then false else true
  | .arr xs => !xs.isEmpty
  | .obj fs => !fs.isEmpty

/-! ## Document model: the migration and load path -/

/-- Embedding of the private migration function of the source: if neither
namespace key is present (short-circuit membership tests, failing with a
TypeError on non-container documents), wrap a flat keys/active document
into the primary namespace, or return the fresh empty two-namespace
document; otherwise return the document unchanged. -/
def migrate (raw : JVal) : Except PyErr JVal :=
  match pyContains "do" raw with
  | .error e => .error e
  | .ok true => .ok raw
  | .ok false =>
    match pyContains "ps" raw with
    | .error e => .error e
    | .ok true => .ok raw
    | .ok false =>
      match pyContains "keys" raw with
      | .error e => .error e
      | .ok hk =>
        match (if hk then Except.ok true else pyContains "active" raw) with
        | .error e => .error e
        | .ok false => .ok (JVal.obj [("do", .obj []), ("ps", .obj [])])
        | .ok true =>
          match pyGet raw "keys" (.obj []) with
          | .error e => .error e
          | .ok k =>
            match pyGet raw "active" .null with
            | .error e => .error e
            | .ok a =>
              .ok (JVal.obj [("do", .obj [("keys", k), ("active", a)]), ("ps", .obj [])])

/-- Outcome of the physical backend calls for one user: the result of the
backend load, and the result of a backend save as a function of the
document being saved. -/
structure Backend where
  loadRes : Except PyErr JVal
  saveRes : JVal → Except PyErr Unit

/-- Embedding of the private raw-load function: any exception of the
backend load is caught and turned into the empty document. -/
def raw_load (bk : Backend) : JVal :=
  match bk.loadRes with
  | .ok v => v
  | .error _ => .obj []

/-- The chained setdefault calls of the load path: ensure key k1 is bound
(to a fresh empty object when absent) and that its value, which must be a
dict, binds k2 (to a fresh empty object when absent); an AttributeError on
non-dict receivers. -/
def setdefault2 (v : JVal) (k1 k2 : String) : Except PyErr JVal :=
  match v with
  | .obj fs =>
    match (objLookup fs k1).getD (.obj []) with
    | .obj ifs =>
      let ifs2 := match objLookup ifs k2 with
        | some _ => ifs
        | none => ifs ++ [(k2, .obj [])]
      .ok (.obj (objUpdate fs k1 (.obj ifs2)))
    | _ => .error .attributeError
  | _ => .error .attributeError

/-- Embedding of the private load function: raw load, migrate, then ensure
both namespaces carry a keys dict. -/
def load_doc (bk : Backend) : Except PyErr JVal :=
  match migrate (raw_load bk) with
  | .error e => .error e
  | .ok d =>
    match setdefault2 d "do" "keys" with
    | .error e => .error e
    | .ok d1 => setdefault2 d1 "ps" "keys"

/-! ## Document model: reads and a mutator -/

/-- Embedding of the private all-keys read: the keys dict of the requested
namespace of the loaded document. -/
def ns_get_all_keys (bk : Backend) (ns : String) : Except PyErr JVal :=
  match load_doc bk with
  | .error e => .error e
  | .ok d =>
    match pyGet d ns (.obj []) with
    | .error e => .error e
    | .ok nsd => pyGet nsd "keys" (.obj [])

/-- Embedding of the private active-name read. -/
def ns_get_active_name (bk : Backend) (ns : String) : Except PyErr JVal :=
  match load_doc bk with
  | .error e => .error e
  | .ok d =>
    match pyGet d ns (.obj []) with
    | .error e => .error e
    | .ok nsd => pyGet nsd "active" .null

/-- Embedding of the private active-token read: when the active value is
truthy, look it up in the keys dict; otherwise None. -/
def ns_get_active_token (bk : Backend) (ns : String) : Except PyErr JVal :=
  match load_doc bk with
  | .error e => .error e
  | .ok d =>
    match pyGet d ns (.obj []) with
    | .error e => .error e
    | .ok nsd =>
      match pyGet nsd "active" .null with
      | .error e => .error e
      | .ok act =>
        if pyTruthy act then
          match pyGet nsd "keys" (.obj []) with
          | .error e => .error e
          | .ok ks => pyGetK ks act
        else
          .ok .null

/-- Embedding of the private set-named-key function at document level:
load, setdefault the namespace, setdefault its keys dict, assign the
entry, set the active value when falsy, and pass the mutated document to
the backend save (whose failure the save wrapper logs and re-raises). -/
def ns_set_named_key_io (bk : Backend) (ns name token : String) : Except PyErr Unit :=
  match load_doc bk with
  | .error e => .error e
  | .ok (JVal.obj fs) =>
    match (objLookup fs ns).getD (.obj [("keys", .obj [])]) with
    | .obj nfs =>
      match (objLookup nfs "keys").getD (.obj []) with
      | .obj kfs =>
        let kfs1 := objUpdate kfs name (.str token)
        let nfs1 := objUpdate nfs "keys" (.obj kfs1)
        let nfs2 :=
          if pyTruthy ((objLookup nfs1 "active").getD .null) then nfs1
          else objUpdate nfs1 "active" (.str name)
        bk.saveRes (.obj (objUpdate fs ns (.obj nfs2)))
      | _ => .error .typeError
    | _ => .error .attributeError
  | .ok _ => .error .attributeError

/-- Remove the single entry bound to a key, mirroring the del statement on
a Python dict. -/
def objDel : List (String × JVal) → String → List (String × JVal)
  | [], _ => []
  | (k, v) :: rest, a => if k = a then rest else (k, v) :: objDel rest a

/-- The first key of a dict as a JSON string, or null when it is empty,
mirroring next(iter(keys), None). -/
def firstKeyOrNull : List (String × JVal) → JVal
  | [] => .null
  | (k, _) :: _ => .str k

/-- Embedding of the private delete-named-key function at document level:
load, read the namespace value with a default, test membership of the name
in its keys value (a TypeError on a non-container keys value), return
false without saving when absent; otherwise delete the entry (a TypeError
on a non-dict keys value), reattach it, reassign a matching active value
to the first remaining key or null, and pass the document to the backend
save.  The namespace value is obtained by get with a fresh-dict default,
so its mutations reach the saved document only when the namespace key is
present in it (on the load-path output it always is). -/
def ns_delete_named_key_io (bk : Backend) (ns name : String) : Except PyErr Bool :=
  match load_doc bk with
  | .error e => .error e
  | .ok (JVal.obj fs) =>
    match (objLookup fs ns).getD (.obj []) with
    | .obj nfs =>
      match pyContains name ((objLookup nfs "keys").getD (.obj [])) with
      | .error e => .error e
      | .ok false => .ok false
      | .ok true =>
        match (objLookup nfs "keys").getD (.obj []) with
        | .obj kfs =>
          let kfs1 := objDel kfs name
          let nfs1 := objUpdate nfs "keys" (.obj kfs1)
          let nfs2 :=
            if (match (objLookup nfs1 "active").getD .null with
                | .str s => decide (s = name)
                | _ => false) then
              objUpdate nfs1 "active" (firstKeyOrNull kfs1)
            else nfs1
          let data1 := if (objLookup fs ns).isSome then
              JVal.obj (objUpdate fs ns (.obj nfs2))
            else .obj fs
          match bk.saveRes data1 with
          | .error e => .error e
          | .ok _ => .ok true
        | _ => .error .typeError
    | _ => .error .attributeError
  | .ok _ => .error .attributeError

/-- Embedding of the private set-active-key function at document level:
load, read the namespace value with a default, test membership of the name
in its keys value, return false without saving when absent; otherwise
assign the active value and pass the document to the backend save.  As in
the delete function, the namespace value reaches the saved document only
when its key is present in the loaded document. -/
def ns_set_active_key_io (bk : Backend) (ns name : String) : Except PyErr Bool :=
  match load_doc bk with
  | .error e => .error e
  | .ok (JVal.obj fs) =>
    match (objLookup fs ns).getD (.obj []) with
    | .obj nfs =>
      match pyContains name ((objLookup nfs "keys").getD (.obj [])) with
      | .error e => .error e
      | .ok false => .ok false
      | .ok true =>
        let nfs1 := objUpdate nfs "active" (.str name)
        let data1 := if (objLookup fs ns).isSome then
            JVal.obj (objUpdate fs ns (.obj nfs1))
          else .obj fs
        match bk.saveRes data1 with
        | .error e => .error e
        | .ok _ => .ok true
    | _ => .error .attributeError
  | .ok _ => .error .attributeError

/-! ## Document model: shapes and the first-generation row migration -/

/-- The document written for each legacy bare-token row by the one-time
table migration of the relational backend: a single named key under the
fixed default name, marked active, with the secondary namespace empty. -/
def pg_migrate_row (token : String) : JVal :=
  .obj [("do", .obj [("keys", .obj [("Default", .str token)]), ("active", .str "Default")]),
        ("ps", .obj [])]

/-- Shape of a namespace value in a current document: only the keys and
active fields, with the keys field a dict of string tokens and the active
field absent, null or a string. -/
def isNsShape : JVal → Bool
  | .obj fs =>
    fs.all (fun p => p.1 = "keys" || p.1 = "active") &&
    (match objLookup fs "keys" with
     | some (.obj ks) => ks.all (fun p => match p.2 with | .str _ => true | _ => false)
     | _ => false) &&
    (match objLookup fs "active" with
     | none => true
     | some .null => true
     | some (.str _) => true
     | _ => false)
  | _ => false

/-- A document already in the current dual-namespace shape: exactly the two
namespace keys, each of namespace shape. -/
def isCurrentShape : JVal → Bool
  | .obj fs =>
    fs.all (fun p => p.1 = "do" || p.1 = "ps") &&
    (match objLookup fs "do" with
     | some v => isNsShape v
     | none => false) &&
    (match objLookup fs "ps" with
     | some v => isNsShape v
     | none => false)
  | _ => false

/-- A malformed per-user document of a benign kind: a JSON object none of
whose keys is one of the four shape-sniffed names. -/
def isPlainForeignObj : JVal → Bool
  | .obj fs =>
    fs.all (fun p =>
      !(p.1 = "do" : Bool) && !(p.1 = "ps" : Bool) &&
      !(p.1 = "keys" : Bool) && !(p.1 = "active" : Bool))
  | _ => false

/-! ## Helper lemmas: key dictionaries -/

theorem dictGet_dictSet (d : KeyDict) (k v a : String) :
    dictGet (dictSet d k v) a = if a = k then some v else dictGet d a := by
  induction d with
  | nil =>
    simp only [dictSet, dictGet]
    by_cases h : a = k
    · subst h
      simp
    · rw [if_neg (Ne.symm h), if_neg h]
  | cons p rest ih =>
    obtain ⟨b, w⟩ := p
    simp only [dictSet]
    split <;> rename_i hbk
    · subst hbk
      by_cases h : a = b
      · subst h
        simp [dictGet]
      · simp [dictGet, h, Ne.symm h]
    · by_cases h : a = b
      · subst h
        simp [dictGet, hbk]
      · simp [dictGet, Ne.symm h, ih]

theorem dictSet_ne_nil (d : KeyDict) (k v : String) : dictSet d k v ≠ [] := by
  cases d with
  | nil => simp [dictSet]
  | cons p rest =>
    obtain ⟨b, w⟩ := p
    by_cases h : b = k <;> simp [dictSet, h]

theorem mem_fst_dictSet (d : KeyDict) (k v a : String) :
    a ∈ (dictSet d k v).map Prod.fst ↔ a ∈ d.map Prod.fst ∨ a = k := by
  induction d with
  | nil => simp [dictSet]
  | cons p rest ih =>
    obtain ⟨b, w⟩ := p
    simp only [dictSet]
    split <;> rename_i hbk
    · subst hbk
      simp only [List.map_cons, List.mem_cons]
      tauto
    · simp only [List.map_cons, List.mem_cons, ih]
      tauto

theorem nodup_dictSet (d : KeyDict) (k v : String) (h : (d.map Prod.fst).Nodup) :
    ((dictSet d k v).map Prod.fst).Nodup := by
  induction d with
  | nil => simp [dictSet]
  | cons p rest ih =>
    obtain ⟨b, w⟩ := p
    simp only [List.map_cons, List.nodup_cons] at h
    by_cases hbk : b = k
    · subst hbk
      simpa [dictSet, List.nodup_cons] using h
    · simp only [dictSet, if_neg hbk, List.map_cons, List.nodup_cons,
        mem_fst_dictSet]
      exact ⟨fun hc => hc.elim h.1 (fun he => hbk he), ih h.2⟩

theorem dictGet_eq_none_iff (d : KeyDict) (a : String) :
    dictGet d a = none ↔ a ∉ d.map Prod.fst := by
  induction d with
  | nil => simp [dictGet]
  | cons p rest ih =>
    obtain ⟨b, w⟩ := p
    by_cases h : b = a
    · subst h
      simp [dictGet]
    · simp [dictGet, h, ih, Ne.symm h]

theorem mem_fst_dictDel (d : KeyDict) (k a : String)
    (h : a ∈ (dictDel d k).map Prod.fst) : a ∈ d.map Prod.fst := by
  induction d with
  | nil => simp [dictDel] at h
  | cons p rest ih =>
    obtain ⟨b, w⟩ := p
    simp only [dictDel] at h
    rw [List.map_cons, List.mem_cons]
    split at h <;> rename_i hbk
    · exact Or.inr h
    · rw [List.map_cons, List.mem_cons] at h
      rcases h with h | h
      · exact Or.inl h
      · exact Or.inr (ih h)

theorem nodup_dictDel (d : KeyDict) (k : String) (h : (d.map Prod.fst).Nodup) :
    ((dictDel d k).map Prod.fst).Nodup := by
  induction d with
  | nil => simp [dictDel]
  | cons p rest ih =>
    obtain ⟨b, w⟩ := p
    simp only [List.map_cons, List.nodup_cons] at h
    by_cases hbk : b = k
    · simpa [dictDel, hbk] using h.2
    · simp only [dictDel, if_neg hbk, List.map_cons, List.nodup_cons]
      exact ⟨fun hc => h.1 (mem_fst_dictDel rest k b hc), ih h.2⟩

theorem dictGet_dictDel_ne (d : KeyDict) (k a : String) (h : a ≠ k) :
    dictGet (dictDel d k) a = dictGet d a := by
  induction d with
  | nil => simp [dictDel]
  | cons p rest ih =>
    obtain ⟨b, w⟩ := p
    by_cases hbk : b = k
    · subst hbk
      simp [dictDel, dictGet, Ne.symm h]
    · simp [dictDel, dictGet, hbk, ih]

theorem dictGet_dictDel_self (d : KeyDict) (k : String)
    (h : (d.map Prod.fst).Nodup) : dictGet (dictDel d k) k = none := by
  induction d with
  | nil => simp [dictDel, dictGet]
  | cons p rest ih =>
    obtain ⟨b, w⟩ := p
    simp only [List.map_cons, List.nodup_cons] at h
    by_cases hbk : b = k
    · subst hbk
      simp only [dictDel, if_pos rfl]
      rw [dictGet_eq_none_iff]
      exact h.1
    · simp [dictDel, dictGet, hbk, ih h.2]

theorem dictFirst_get (d : KeyDict) (a : String) (h : dictFirst d = some a) :
    (dictGet d a).isSome = true := by
  cases d with
  | nil => simp [dictFirst] at h
  | cons p rest =>
    obtain ⟨b, w⟩ := p
    simp only [dictFirst, List.head?, Option.map_some] at h
    cases h
    simp [dictGet]

theorem dictFirst_eq_none_iff (d : KeyDict) : dictFirst d = none ↔ d = [] := by
  cases d <;> simp [dictFirst]

theorem dictGet_isSome_ne_nil (d : KeyDict) (a : String)
    (h : (dictGet d a).isSome = true) : d ≠ [] := by
  intro hnil
  subst hnil
  simp [dictGet] at h

/-! ## Helper lemmas: record access -/

theorem get_set_self (r : UserRecord) (ns : NsId) (s : NsState) :
    (r.set ns s).get ns = s := by
  cases ns <;> rfl

theorem get_set_other (r : UserRecord) (ns ns' : NsId) (s : NsState)
    (h : ns' ≠ ns) : (r.set ns s).get ns' = r.get ns' := by
  cases ns <;> cases ns' <;> first | rfl | exact absurd rfl h

/-! ## The namespace invariant and its preservation -/

/-- Well-formedness of a namespace state: no duplicate key names, the
active pointer is none exactly when the key dict is empty, and a present
active pointer names a stored key. -/
def NsWf (s : NsState) : Prop :=
  (s.keys.map Prod.fst).Nodup ∧ (s.active = none ↔ s.keys = []) ∧
  ∀ a, s.active = some a → (dictGet s.keys a).isSome = true

def RecordWf (r : UserRecord) : Prop := ∀ ns, NsWf (r.get ns)

theorem nsWf_emptyNs : NsWf emptyNs := by
  refine ⟨by simp [emptyNs], by simp [emptyNs], ?_⟩
  intro a h
  simp [emptyNs] at h

theorem recordWf_empty : RecordWf emptyRecord := by
  intro ns
  cases ns <;> exact nsWf_emptyNs

theorem strTruthy_some (o : Option String) (h : strTruthy o = true) :
    ∃ a, o = some a := by
  cases o with
  | none => simp [strTruthy] at h
  | some a => exact ⟨a, rfl⟩

theorem nsWf_set_named (s : NsState) (hs : NsWf s) (name token : String) :
    NsWf ⟨dictSet s.keys name token,
          if strTruthy s.active then s.active else some name⟩ := by
  obtain ⟨hnd, hiff, hmem⟩ := hs
  refine ⟨nodup_dictSet _ _ _ hnd, ?_, ?_⟩
  · constructor
    · intro h
      by_cases ht : strTruthy s.active = true
      · rw [if_pos ht] at h
        obtain ⟨a, ha⟩ := strTruthy_some _ ht
        rw [ha] at h
        exact absurd h (by simp)
      · rw [if_neg ht] at h
        exact absurd h (by simp)
    · intro h
      exact absurd h (dictSet_ne_nil _ _ _)
  · intro a ha
    by_cases ht : strTruthy s.active = true
    · rw [if_pos ht] at ha
      have := hmem a ha
      rw [dictGet_dictSet]
      by_cases hak : a = name <;> simp [hak, this]
    · rw [if_neg ht] at ha
      cases ha
      simp [dictGet_dictSet]

theorem nsWf_delete (s : NsState) (hs : NsWf s) (name : String)
    (hpres : (dictGet s.keys name).isSome = true) :
    NsWf ⟨dictDel s.keys name,
          if s.active = some name then dictFirst (dictDel s.keys name)
          else s.active⟩ := by
  obtain ⟨hnd, hiff, hmem⟩ := hs
  refine ⟨nodup_dictDel _ _ hnd, ?_, ?_⟩
  · by_cases hact : s.active = some name
    · rw [if_pos hact]
      exact dictFirst_eq_none_iff _
    · rw [if_neg hact]
      have hne : s.keys ≠ [] := dictGet_isSome_ne_nil _ _ hpres
      obtain ⟨a, ha⟩ : ∃ a, s.active = some a := by
        cases hsa : s.active with
        | none => exact absurd (hiff.mp hsa) hne
        | some a => exact ⟨a, rfl⟩
      have hank : a ≠ name := by
        intro h
        rw [h] at ha
        exact hact ha
      have : (dictGet (dictDel s.keys name) a).isSome = true := by
        rw [dictGet_dictDel_ne _ _ _ hank]
        exact hmem a ha
      constructor
      · intro h
        rw [ha] at h
        exact absurd h (by simp)
      · intro h
        change dictDel s.keys name = [] at h
        rw [h] at this
        simp [dictGet] at this
  · intro a ha
    by_cases hact : s.active = some name
    · rw [if_pos hact] at ha
      exact dictFirst_get _ _ ha
    · rw [if_neg hact] at ha
      have hank : a ≠ name := by
        intro h
        rw [h] at ha
        exact hact ha
      rw [dictGet_dictDel_ne _ _ _ hank]
      exact hmem a ha

theorem nsWf_set_active (s : NsState) (hs : NsWf s) (name : String)
    (hpres : (dictGet s.keys name).isSome = true) :
    NsWf { s with active := some name } := by
  obtain ⟨hnd, hiff, hmem⟩ := hs
  refine ⟨hnd, ?_, ?_⟩
  · constructor
    · intro h
      exact absurd h (by simp)
    · intro h
      change s.keys = [] at h
      rw [h] at hpres
      simp [dictGet] at hpres
  · intro a ha
    simp only at ha
    cases ha
    exact hpres

theorem recordWf_applyOp (r : UserRecord) (h : RecordWf r) (op : Op) :
    RecordWf (applyOp r op) := by
  cases op with
  | setKey ns n t =>
    intro ns'
    by_cases hns : ns' = ns
    · subst hns
      simpa [applyOp, ns_set_named_key, get_set_self] using
        nsWf_set_named (r.get ns') (h ns') n t
    · simpa [applyOp, ns_set_named_key, get_set_other r ns ns' _ hns] using h ns'
  | delKey ns n =>
    by_cases hpres : (dictGet ((r.get ns).keys) n).isSome = true
    · intro ns'
      by_cases hns : ns' = ns
      · subst hns
        simpa [applyOp, ns_delete_named_key, hpres, get_set_self] using
          nsWf_delete (r.get ns') (h ns') n hpres
      · simpa [applyOp, ns_delete_named_key, hpres,
          get_set_other r ns ns' _ hns] using h ns'
    · simpa [applyOp, ns_delete_named_key, hpres] using h
  | setActive ns n =>
    by_cases hpres : (dictGet ((r.get ns).keys) n).isSome = true
    · intro ns'
      by_cases hns : ns' = ns
      · subst hns
        simpa [applyOp, ns_set_active_key, hpres, get_set_self] using
          nsWf_set_active (r.get ns') (h ns') n hpres
      · simpa [applyOp, ns_set_active_key, hpres,
          get_set_other r ns ns' _ hns] using h ns'
    · simpa [applyOp, ns_set_active_key, hpres] using h

theorem recordWf_foldl (ops : List Op) (r : UserRecord) (h : RecordWf r) :
    RecordWf (ops.foldl applyOp r) := by
  induction ops generalizing r with
  | nil => exact h
  | cons op rest ih => exact ih (applyOp r op) (recordWf_applyOp r h op)

theorem recordWf_runOps (ops : List Op) : RecordWf (runOps ops) :=
  recordWf_foldl ops emptyRecord recordWf_empty

theorem emptyRecord_get (ns : NsId) : emptyRecord.get ns = emptyNs := by
  cases ns <;> rfl

/-! ## Claims about the typed registry model -/

/-- C1: for every namespace, starting from the empty record, after any
sequence of mutating operations the active field is none exactly when the
keys mapping is empty, and a present active field names a stored key. -/
theorem active_iff_keys_invariant (ops : List Op) (ns : NsId) :
    (((runOps ops).get ns).active = none ↔ ((runOps ops).get ns).keys = []) ∧
    ∀ a, ((runOps ops).get ns).active = some a →
      (dictGet ((runOps ops).get ns).keys a).isSome = true :=
  ⟨(recordWf_runOps ops ns).2.1, (recordWf_runOps ops ns).2.2⟩

/-- C1 witness: the invariant evaluated after one concrete operation. -/
theorem active_iff_keys_invariant_witness :
    ((runOps [Op.setKey .ndo "A" "t"]).get .ndo).active = some "A" ∧
    (dictGet ((runOps [Op.setKey .ndo "A" "t"]).get .ndo).keys "A").isSome = true :=
  ⟨by decide, (active_iff_keys_invariant [Op.setKey .ndo "A" "t"] .ndo).2 "A" (by decide)⟩

/-- C2 counterexample: in the reachable state holding the single key named
by the empty string (whose active pointer is the empty string, a falsy
value), adding a second key moves the active pointer even though the
namespace had a nonzero number of keys before the call. -/
theorem set_named_key_active_change_cex :
    ((ns_set_named_key emptyRecord .ndo "" "t1").get .ndo).keys ≠ [] ∧
    ((ns_set_named_key emptyRecord .ndo "" "t1").get .ndo).active = some "" ∧
    ((ns_set_named_key (ns_set_named_key emptyRecord .ndo "" "t1") .ndo "B" "t2").get
        .ndo).active = some "B" := by
  decide

/-- C2 (amended): set_named_key inserts or overwrites the entry and leaves
every other entry alone; when the stored active value is falsy (absent or
the empty string) — in particular on a namespace with zero keys — the new
name becomes active, and otherwise the active pointer is unchanged; after
adding a key A with a nonempty name to an empty namespace and then a key
B, the active key is still A. -/
theorem set_named_key_amended (r : UserRecord) (ns : NsId) (name token : String) :
    dictGet ((ns_set_named_key r ns name token).get ns).keys name = some token ∧
    (∀ n, n ≠ name → dictGet ((ns_set_named_key r ns name token).get ns).keys n
        = dictGet (r.get ns).keys n) ∧
    (strTruthy (r.get ns).active = false →
      ((ns_set_named_key r ns name token).get ns).active = some name) ∧
    (strTruthy (r.get ns).active = true →
      ((ns_set_named_key r ns name token).get ns).active = (r.get ns).active) ∧
    (∀ A B tA tB : String, A ≠ "" →
      ((ns_set_named_key (ns_set_named_key emptyRecord ns A tA) ns B tB).get ns).active
        = some A) := by
  refine ⟨?_, ?_, ?_, ?_, ?_⟩
  · simp [ns_set_named_key, get_set_self, dictGet_dictSet]
  · intro n hn
    simp [ns_set_named_key, get_set_self, dictGet_dictSet, hn]
  · intro h
    simp [ns_set_named_key, get_set_self, h]
  · intro h
    simp [ns_set_named_key, get_set_self, h]
  · intro A B tA tB hA
    simp [ns_set_named_key, get_set_self, emptyRecord_get, emptyNs, strTruthy,
      dictSet, hA]

/-- C2 witness: the amended claim evaluated at concrete inputs, on an
empty namespace and in the two-key scenario. -/
theorem set_named_key_amended_witness :
    ((ns_set_named_key emptyRecord .ndo "A" "t1").get .ndo).active = some "A" ∧
    ((ns_set_named_key (ns_set_named_key emptyRecord .ndo "A" "t1") .ndo "B" "t2").get
        .ndo).active = some "A" :=
  ⟨(set_named_key_amended emptyRecord .ndo "A" "t1").2.2.1 (by decide),
   (set_named_key_amended emptyRecord .ndo "B" "t2").2.2.2.2 "A" "B" "t1" "t2"
     (by decide)⟩

/-- C3: delete_named_key returns true, saves, and removes the entry exactly
when the name is stored, returning false without saving otherwise; when the
deleted entry was the active one, the active pointer moves to some
remaining stored key, or to none when the namespace became empty; when it
was not the active one, the active pointer is unchanged. -/
theorem delete_named_key_spec (r : UserRecord) (ns : NsId) (name : String)
    (hnd : ((r.get ns).keys.map Prod.fst).Nodup) :
    ((dictGet (r.get ns).keys name).isSome = true →
      (ns_delete_named_key r ns name).1 = true ∧
      ∃ r', (ns_delete_named_key r ns name).2 = some r' ∧
        dictGet (r'.get ns).keys name = none ∧
        (∀ n, n ≠ name → dictGet (r'.get ns).keys n = dictGet (r.get ns).keys n) ∧
        ((r.get ns).active = some name →
          ((r'.get ns).keys = [] ∧ (r'.get ns).active = none) ∨
          (∃ a, (r'.get ns).active = some a ∧
            (dictGet (r'.get ns).keys a).isSome = true)) ∧
        ((r.get ns).active ≠ some name → (r'.get ns).active = (r.get ns).active)) ∧
    ((dictGet (r.get ns).keys name).isSome = false →
      ns_delete_named_key r ns name = (false, none)) := by
  constructor
  · intro hpres
    refine ⟨by simp [ns_delete_named_key, hpres], ?_⟩
    refine ⟨r.set ns ⟨dictDel (r.get ns).keys name,
      if (r.get ns).active = some name then dictFirst (dictDel (r.get ns).keys name)
      else (r.get ns).active⟩, by simp [ns_delete_named_key, hpres], ?_, ?_, ?_, ?_⟩
    · rw [get_set_self]
      exact dictGet_dictDel_self _ _ hnd
    · intro n hn
      rw [get_set_self]
      exact dictGet_dictDel_ne _ _ _ hn
    · intro hact
      rw [get_set_self]
      simp only [if_pos hact]
      cases hk : dictDel (r.get ns).keys name with
      | nil => exact Or.inl ⟨rfl, by simp [dictFirst]⟩
      | cons p rest =>
        refine Or.inr ⟨p.1, by simp [dictFirst], ?_⟩
        simp [hk, dictGet]
    · intro hact
      rw [get_set_self]
      simp [if_neg hact]
  · intro habs
    simp [ns_delete_named_key, habs]

/-- C3 witness: deleting the only (active) key empties the namespace and
clears the active pointer; deleting an absent key returns false. -/
theorem delete_named_key_spec_witness :
    (ns_delete_named_key ⟨⟨[("A", "t")], some "A"⟩, emptyNs⟩ .ndo "A").1 = true ∧
    ns_delete_named_key ⟨⟨[("A", "t")], some "A"⟩, emptyNs⟩ .ndo "Z"
      = (false, none) :=
  ⟨((delete_named_key_spec ⟨⟨[("A", "t")], some "A"⟩, emptyNs⟩ .ndo "A"
      (by decide)).1 (by decide)).1,
   (delete_named_key_spec ⟨⟨[("A", "t")], some "A"⟩, emptyNs⟩ .ndo "Z"
      (by decide)).2 (by decide)⟩

/-- C4: set_active_key on an absent name returns false and passes nothing
to the backing store; on a stored name it saves the record with only the
active pointer of that namespace switched, and returns true. -/
theorem set_active_key_spec (r : UserRecord) (ns : NsId) (name : String) :
    ((dictGet (r.get ns).keys name).isSome = false →
      ns_set_active_key r ns name = (false, none)) ∧
    ((dictGet (r.get ns).keys name).isSome = true →
      ∃ r', ns_set_active_key r ns name = (true, some r') ∧
        r'.get ns = ⟨(r.get ns).keys, some name⟩ ∧
        ∀ ns', ns' ≠ ns → r'.get ns' = r.get ns') := by
  constructor
  · intro habs
    simp [ns_set_active_key, habs]
  · intro hpres
    refine ⟨r.set ns ⟨(r.get ns).keys, some name⟩, ?_, get_set_self _ _ _, ?_⟩
    · simp [ns_set_active_key, hpres]
    · intro ns' hns
      exact get_set_other _ _ _ _ hns

/-- C4 witness: both branches evaluated at concrete inputs. -/
theorem set_active_key_spec_witness :
    ns_set_active_key ⟨⟨[("A", "t")], some "A"⟩, emptyNs⟩ .ndo "Z" = (false, none) ∧
    (ns_set_active_key ⟨⟨[("A", "t"), ("B", "u")], some "A"⟩, emptyNs⟩ .ndo "B").1
      = true :=
  ⟨(set_active_key_spec ⟨⟨[("A", "t")], some "A"⟩, emptyNs⟩ .ndo "Z").1 (by decide),
   by
    obtain ⟨r', hr', -, -⟩ :=
      (set_active_key_spec ⟨⟨[("A", "t"), ("B", "u")], some "A"⟩, emptyNs⟩ .ndo "B").2
        (by decide)
    rw [hr']⟩

/-- C10: every mutating operation scoped to one namespace leaves the whole
state of the other namespace unchanged in the record passed to the backing
store. -/
theorem namespace_frame (r : UserRecord) (ns ns' : NsId) (h : ns' ≠ ns)
    (name token : String) :
    (ns_set_named_key r ns name token).get ns' = r.get ns' ∧
    (∀ r', (ns_delete_named_key r ns name).2 = some r' → r'.get ns' = r.get ns') ∧
    (∀ r', (ns_set_active_key r ns name).2 = some r' → r'.get ns' = r.get ns') := by
  refine ⟨?_, ?_, ?_⟩
  · simp [ns_set_named_key, get_set_other _ _ _ _ h]
  · intro r' hr'
    by_cases hpres : (dictGet (r.get ns).keys name).isSome = true
    · simp only [ns_delete_named_key, hpres, if_pos, Option.some.injEq] at hr'
      rw [← hr', get_set_other _ _ _ _ h]
    · simp [ns_delete_named_key, hpres] at hr'
  · intro r' hr'
    by_cases hpres : (dictGet (r.get ns).keys name).isSome = true
    · simp only [ns_set_active_key, hpres, if_pos, Option.some.injEq] at hr'
      rw [← hr', get_set_other _ _ _ _ h]
    · simp [ns_set_active_key, hpres] at hr'

/-- C10 witness: a concrete DigitalOcean mutation leaves the Paperspace
namespace untouched. -/
theorem namespace_frame_witness :
    (ns_set_named_key ⟨emptyNs, ⟨[("P", "p")], some "P"⟩⟩ .ndo "A" "t").get .nps
      = ⟨[("P", "p")], some "P"⟩ :=
  (namespace_frame ⟨emptyNs, ⟨[("P", "p")], some "P"⟩⟩ .ndo .nps (by decide)
    "A" "t").1

/-! ## Helper lemmas: the document model -/

theorem objLookup_eq_none_iff (fs : List (String × JVal)) (k : String) :
    objLookup fs k = none ↔ ∀ p ∈ fs, p.1 ≠ k := by
  induction fs with
  | nil => simp [objLookup]
  | cons p rest ih =>
    obtain ⟨b, w⟩ := p
    by_cases h : b = k
    · subst h
      simp [objLookup]
    · simp [objLookup, h, ih]

theorem migrate_obj_has_do (fs : List (String × JVal))
    (h : (objLookup fs "do").isSome = true) : migrate (.obj fs) = .ok (.obj fs) := by
  simp [migrate, pyContains, h]

/-- Case analysis on the migration result: it is the input unchanged, an
error, the fresh empty two-namespace document, or a wrapped mid-schema
document. -/
theorem migrate_cases (raw : JVal) :
    migrate raw = .ok raw ∨ (∃ e, migrate raw = .error e) ∨
    migrate raw = .ok (.obj [("do", .obj []), ("ps", .obj [])]) ∨
    (∃ k a, migrate raw
      = .ok (.obj [("do", .obj [("keys", k), ("active", a)]), ("ps", .obj [])])) := by
  unfold migrate
  split
  · exact Or.inr (Or.inl ⟨_, rfl⟩)
  · exact Or.inl rfl
  · split
    · exact Or.inr (Or.inl ⟨_, rfl⟩)
    · exact Or.inl rfl
    · split
      · exact Or.inr (Or.inl ⟨_, rfl⟩)
      · split
        · exact Or.inr (Or.inl ⟨_, rfl⟩)
        · exact Or.inr (Or.inr (Or.inl rfl))
        · split
          · exact Or.inr (Or.inl ⟨_, rfl⟩)
          · split
            · exact Or.inr (Or.inl ⟨_, rfl⟩)
            · exact Or.inr (Or.inr (Or.inr ⟨_, _, rfl⟩))

/-- The fully normalized empty document produced by the load path for an
absent, empty or failed raw load. -/
def emptyNormDoc : JVal :=
  .obj [("do", .obj [("keys", .obj [])]), ("ps", .obj [("keys", .obj [])])]

theorem reads_on_norm_empty (bk : Backend) (h : load_doc bk = .ok emptyNormDoc)
    (ns : String) :
    ns_get_all_keys bk ns = .ok (.obj []) ∧
    ns_get_active_name bk ns = .ok .null ∧
    ns_get_active_token bk ns = .ok .null := by
  by_cases h1 : ns = "do"
  · subst h1
    simp [ns_get_all_keys, ns_get_active_name, ns_get_active_token, h, emptyNormDoc,
      pyGet, objLookup, pyTruthy]
  · by_cases h2 : ns = "ps"
    · subst h2
      simp [ns_get_all_keys, ns_get_active_name, ns_get_active_token, h, emptyNormDoc,
        pyGet, objLookup, pyTruthy]
    · simp [ns_get_all_keys, ns_get_active_name, ns_get_active_token, h, emptyNormDoc,
        pyGet, objLookup, pyTruthy, Ne.symm h1, Ne.symm h2]

/-- Every exit of the document-level set-named-key against a backend whose
save always fails is an error. -/
theorem set_named_key_io_err (lr : Except PyErr JVal) (e : PyErr)
    (ns name token : String) :
    ∃ e', ns_set_named_key_io ⟨lr, fun _ => .error e⟩ ns name token = .error e' := by
  unfold ns_set_named_key_io
  split
  · exact ⟨_, rfl⟩
  · split
    · split
      · exact ⟨e, rfl⟩
      · exact ⟨_, rfl⟩
    · exact ⟨_, rfl⟩
  · exact ⟨_, rfl⟩

/-- The document-level delete never reports a successful deletion against a
backend whose save always fails: every path to the true result passes
through the save call. -/
theorem delete_named_key_io_err (lr : Except PyErr JVal) (e : PyErr)
    (ns name : String) :
    ns_delete_named_key_io ⟨lr, fun _ => .error e⟩ ns name ≠ .ok true := by
  unfold ns_delete_named_key_io
  split
  · simp
  · split
    · split
      · simp
      · simp
      · split
        · simp
        · simp
    · simp
  · simp

/-- The document-level active switch never reports success against a
backend whose save always fails. -/
theorem set_active_key_io_err (lr : Except PyErr JVal) (e : PyErr)
    (ns name : String) :
    ns_set_active_key_io ⟨lr, fun _ => .error e⟩ ns name ≠ .ok true := by
  unfold ns_set_active_key_io
  split
  · simp
  · split
    · split
      · simp
      · simp
      · simp
    · simp
  · simp

/-- On the loaded empty record the delete and active-switch operations take
the absent-name path: they return false without reaching the save call,
even against a backend whose save always fails. -/
theorem mutators_absent_no_save (e : PyErr) (ns name : String) :
    ns_delete_named_key_io ⟨.ok (.obj []), fun _ => .error e⟩ ns name = .ok false ∧
    ns_set_active_key_io ⟨.ok (.obj []), fun _ => .error e⟩ ns name = .ok false := by
  by_cases h1 : ns = "do"
  · subst h1
    exact ⟨rfl, rfl⟩
  · by_cases h2 : ns = "ps"
    · subst h2
      exact ⟨rfl, rfl⟩
    · have hld : load_doc ⟨.ok (.obj []), fun _ => .error e⟩ = .ok emptyNormDoc := rfl
      constructor <;>
        simp [ns_delete_named_key_io, ns_set_active_key_io, hld, emptyNormDoc,
          objLookup, pyContains, Ne.symm h1, Ne.symm h2]

/-! ## Claims about the document model -/

/-- C5: migration is idempotent: a document already in the current
dual-namespace shape migrates to itself unchanged, and applying the
migration twice equals applying it once on every document (errors
included). -/
theorem migrate_idempotent (v : JVal) :
    (isCurrentShape v = true → migrate v = .ok v) ∧
    (migrate v).bind migrate = migrate v := by
  constructor
  · intro h
    cases v with
    | obj fs =>
      apply migrate_obj_has_do
      simp only [isCurrentShape, Bool.and_eq_true] at h
      cases hdo : objLookup fs "do" with
      | none =>
        rw [hdo] at h
        simp at h
      | some w => simp [hdo]
    | null => simp [isCurrentShape] at h
    | bool b => simp [isCurrentShape] at h
    | num n => simp [isCurrentShape] at h
    | str s => simp [isCurrentShape] at h
    | arr xs => simp [isCurrentShape] at h
  · rcases migrate_cases v with h | ⟨e, h⟩ | h | ⟨k, a, h⟩
    · rw [h]
      simpa [Except.bind] using h
    · rw [h]
      simp [Except.bind]
    · rw [h]
      simp only [Except.bind]
      exact migrate_obj_has_do _ (by simp [objLookup])
    · rw [h]
      simp only [Except.bind]
      exact migrate_obj_has_do _ (by simp [objLookup])

/-- C5 witness: a concrete current-shape document is a fixed point of the
migration. -/
theorem migrate_idempotent_witness :
    isCurrentShape (.obj [("do", .obj [("keys", .obj [("A", .str "x")]),
        ("active", .str "A")]), ("ps", .obj [("keys", .obj [])])]) = true ∧
    migrate (.obj [("do", .obj [("keys", .obj [("A", .str "x")]),
        ("active", .str "A")]), ("ps", .obj [("keys", .obj [])])])
      = .ok (.obj [("do", .obj [("keys", .obj [("A", .str "x")]),
        ("active", .str "A")]), ("ps", .obj [("keys", .obj [])])]) :=
  ⟨rfl, (migrate_idempotent _).1 rfl⟩

/-- C6: the one-time row migration of a first-generation bare-token record
produces a document with exactly one named key, under the fixed name
Default, holding the token and marked active, with the secondary namespace
empty; the document is a fixed point of the load-time migration and the
registry reads report exactly that state. -/
theorem first_gen_row_migration_spec (t : String) :
    migrate (pg_migrate_row t) = .ok (pg_migrate_row t) ∧
    ns_get_all_keys ⟨.ok (pg_migrate_row t), fun _ => .ok ()⟩ "do"
      = .ok (.obj [("Default", .str t)]) ∧
    ns_get_active_name ⟨.ok (pg_migrate_row t), fun _ => .ok ()⟩ "do"
      = .ok (.str "Default") ∧
    ns_get_active_token ⟨.ok (pg_migrate_row t), fun _ => .ok ()⟩ "do"
      = .ok (.str t) ∧
    ns_get_all_keys ⟨.ok (pg_migrate_row t), fun _ => .ok ()⟩ "ps" = .ok (.obj []) ∧
    ns_get_active_name ⟨.ok (pg_migrate_row t), fun _ => .ok ()⟩ "ps" = .ok .null :=
  ⟨rfl, rfl, rfl, rfl, rfl, rfl⟩

/-- C7 counterexample: a mutating operation against a failing backend save
raises: the registry does not catch the save failure (the save wrapper
logs and re-raises). -/
theorem save_failure_propagates_cex :
    ns_set_named_key_io ⟨.ok (.obj []), fun _ => .error .ioError⟩ "do" "A" "t"
      = .error .ioError := rfl

/-- C7 (amended): a backend load failure is converted to the empty record,
so every read operation returns an empty mapping or none; a backend save
failure, however, is re-raised by the save wrapper, so no mutating
operation succeeds against a failing save along any path that attempts a
save: set_named_key never returns normally, and delete_named_key and
set_active_key never report success — their only non-raising paths are the
absent-name ones, which return false without attempting a save. -/
theorem storage_failure_policy_amended :
    (∀ (e : PyErr) (sv : JVal → Except PyErr Unit) (ns : String),
      ns_get_all_keys ⟨.error e, sv⟩ ns = .ok (.obj []) ∧
      ns_get_active_name ⟨.error e, sv⟩ ns = .ok .null ∧
      ns_get_active_token ⟨.error e, sv⟩ ns = .ok .null) ∧
    (∀ (lr : Except PyErr JVal) (e : PyErr) (ns name token : String),
      ns_set_named_key_io ⟨lr, fun _ => .error e⟩ ns name token ≠ .ok ()) ∧
    (∀ (lr : Except PyErr JVal) (e : PyErr) (ns name : String),
      ns_delete_named_key_io ⟨lr, fun _ => .error e⟩ ns name ≠ .ok true) ∧
    (∀ (lr : Except PyErr JVal) (e : PyErr) (ns name : String),
      ns_set_active_key_io ⟨lr, fun _ => .error e⟩ ns name ≠ .ok true) ∧
    (∀ (e : PyErr) (ns name : String),
      ns_delete_named_key_io ⟨.ok (.obj []), fun _ => .error e⟩ ns name
        = .ok false ∧
      ns_set_active_key_io ⟨.ok (.obj []), fun _ => .error e⟩ ns name
        = .ok false) := by
  refine ⟨?_, ?_, ?_, ?_, ?_⟩
  · intro e sv ns
    exact reads_on_norm_empty ⟨.error e, sv⟩ rfl ns
  · intro lr e ns name token h
    obtain ⟨e', he⟩ := set_named_key_io_err lr e ns name token
    rw [he] at h
    exact Except.noConfusion h
  · intro lr e ns name
    exact delete_named_key_io_err lr e ns name
  · intro lr e ns name
    exact set_active_key_io_err lr e ns name
  · intro e ns name
    exact mutators_absent_no_save e ns name

/-- C7 witness: the amended claim evaluated at a concrete failing backend,
for all three mutators and a read. -/
theorem storage_failure_policy_amended_witness :
    ns_get_all_keys ⟨.error .ioError, fun _ => .ok ()⟩ "do" = .ok (.obj []) ∧
    ns_set_named_key_io ⟨.ok (.obj []), fun _ => .error .ioError⟩ "ps" "A" "t"
      ≠ .ok () ∧
    ns_delete_named_key_io ⟨.ok (.obj []), fun _ => .error .ioError⟩ "do" "A"
      ≠ .ok true ∧
    ns_set_active_key_io ⟨.ok (.obj []), fun _ => .error .ioError⟩ "do" "A"
      ≠ .ok true ∧
    ns_delete_named_key_io ⟨.ok (.obj []), fun _ => .error .ioError⟩ "do" "A"
      = .ok false :=
  ⟨(storage_failure_policy_amended.1 .ioError (fun _ => .ok ()) "do").1,
   storage_failure_policy_amended.2.1 (.ok (.obj [])) .ioError "ps" "A" "t",
   storage_failure_policy_amended.2.2.1 (.ok (.obj [])) .ioError "do" "A",
   storage_failure_policy_amended.2.2.2.1 (.ok (.obj [])) .ioError "do" "A",
   (storage_failure_policy_amended.2.2.2.2 .ioError "do" "A").1⟩

/-- C8 counterexample: a malformed per-user document that is not a
container — the JSON number 5 — makes the membership test of the migration
raise a TypeError, which the load path does not catch, so every read
operation raises instead of returning an empty result. -/
theorem malformed_doc_read_raises_cex :
    ns_get_all_keys ⟨.ok (.num 5), fun _ => .ok ()⟩ "do" = .error .typeError ∧
    ns_get_active_name ⟨.ok (.num 5), fun _ => .ok ()⟩ "do" = .error .typeError ∧
    ns_get_active_token ⟨.ok (.num 5), fun _ => .ok ()⟩ "do" = .error .typeError :=
  ⟨rfl, rfl, rfl⟩

/-- C8 (amended): a malformed per-user document that is a JSON object
containing none of the four shape-sniffed keys is treated as the empty
record: every read operation returns an empty mapping or none and no
exception is raised. -/
theorem malformed_plain_obj_amended (v : JVal) (h : isPlainForeignObj v = true)
    (sv : JVal → Except PyErr Unit) (ns : String) :
    ns_get_all_keys ⟨.ok v, sv⟩ ns = .ok (.obj []) ∧
    ns_get_active_name ⟨.ok v, sv⟩ ns = .ok .null ∧
    ns_get_active_token ⟨.ok v, sv⟩ ns = .ok .null := by
  apply reads_on_norm_empty
  cases v with
  | obj fs =>
    simp only [isPlainForeignObj, List.all_eq_true] at h
    have hprops : ∀ p ∈ fs, p.1 ≠ "do" ∧ p.1 ≠ "ps" ∧ p.1 ≠ "keys" ∧ p.1 ≠ "active" := by
      intro p hp
      have := h p hp
      simpa [Bool.and_eq_true, Bool.not_eq_true', decide_eq_false_iff_not,
        and_assoc] using this
    have hdo : objLookup fs "do" = none :=
      (objLookup_eq_none_iff fs "do").mpr (fun p hp => (hprops p hp).1)
    have hps : objLookup fs "ps" = none :=
      (objLookup_eq_none_iff fs "ps").mpr (fun p hp => (hprops p hp).2.1)
    have hkeys : objLookup fs "keys" = none :=
      (objLookup_eq_none_iff fs "keys").mpr (fun p hp => (hprops p hp).2.2.1)
    have hactive : objLookup fs "active" = none :=
      (objLookup_eq_none_iff fs "active").mpr (fun p hp => (hprops p hp).2.2.2)
    have hm : migrate (.obj fs) = .ok (.obj [("do", .obj []), ("ps", .obj [])]) := by
      simp [migrate, pyContains, hdo, hps, hkeys, hactive]
    unfold load_doc
    rw [show raw_load ⟨.ok (.obj fs), sv⟩ = .obj fs from rfl, hm]
    rfl
  | null => simp [isPlainForeignObj] at h
  | bool b => simp [isPlainForeignObj] at h
  | num n => simp [isPlainForeignObj] at h
  | str s => simp [isPlainForeignObj] at h
  | arr xs => simp [isPlainForeignObj] at h

/-- C8 witness: the amended claim evaluated at a concrete foreign object. -/
theorem malformed_plain_obj_amended_witness :
    isPlainForeignObj (.obj [("foo", .num 1)]) = true ∧
    ns_get_all_keys ⟨.ok (.obj [("foo", .num 1)]), fun _ => .ok ()⟩ "do"
      = .ok (.obj []) :=
  ⟨rfl, (malformed_plain_obj_amended (.obj [("foo", .num 1)]) rfl
    (fun _ => .ok ()) "do").1⟩

/-- C9 counterexample: the token resolution reads the configuration inside
the operation: with the same stored record, changing the configured
default changes the result, so the fallback is not a caller-supplied
parameter of the stored-record computation. -/
theorem get_token_config_dependent_cex :
    get_token emptyRecord ⟨"x", ""⟩ = some "x" ∧
    get_token emptyRecord ⟨"", ""⟩ = none ∧
    get_token emptyRecord ⟨"x", ""⟩ ≠ get_token emptyRecord ⟨"", ""⟩ := by
  decide

/-- C9 (amended): get_token and get_ps_token return the active token when
a truthy (nonempty) one exists; otherwise they read the corresponding
configured default inside the operation and return it when nonempty, else
none. -/
theorem get_token_fallback_amended (r : UserRecord) (cfg : Config) :
    (∀ t, get_active_token r = some t → t ≠ "" → get_token r cfg = some t) ∧
    ((get_active_token r = none ∨ get_active_token r = some "") →
      get_token r cfg
        = (if cfg.DO_API_TOKEN = "" then none else some cfg.DO_API_TOKEN)) ∧
    (∀ t, ps_get_active_token r = some t → t ≠ "" → get_ps_token r cfg = some t) ∧
    ((ps_get_active_token r = none ∨ ps_get_active_token r = some "") →
      get_ps_token r cfg
        = (if cfg.PS_API_TOKEN = "" then none else some cfg.PS_API_TOKEN)) := by
  refine ⟨?_, ?_, ?_, ?_⟩
  · intro t ht hne
    simp [get_token, ht, strTruthy, hne]
  · intro hc
    rcases hc with hc | hc <;> simp [get_token, hc, strTruthy, fallbackEnv]
  · intro t ht hne
    simp [get_ps_token, ht, strTruthy, hne]
  · intro hc
    rcases hc with hc | hc <;> simp [get_ps_token, hc, strTruthy, fallbackEnv]

/-- C9 witness: the amended claim evaluated at concrete records and
configurations. -/
theorem get_token_fallback_amended_witness :
    get_token ⟨⟨[("A", "tok")], some "A"⟩, emptyNs⟩ ⟨"env", ""⟩ = some "tok" ∧
    get_token emptyRecord ⟨"env", ""⟩ = (if ("env" : String) = "" then none
      else some "env") :=
  ⟨(get_token_fallback_amended ⟨⟨[("A", "tok")], some "A"⟩, emptyNs⟩
      ⟨"env", ""⟩).1 "tok" (by decide) (by decide),
   (get_token_fallback_amended emptyRecord ⟨"env", ""⟩).2.1 (Or.inl (by decide))⟩
